import Mathlib

/-!
Verification of the resume-analysis / job-matching engine of the resume
repository (`backend/resume_processor.py`, `backend/job_matcher.py`,
`backend/advanced_main.py`).

The Python code is shallowly embedded: every scoring function becomes a total
Lean function over `String` / `List Char`, Python `float` arithmetic on the
scores becomes exact `ℚ` arithmetic, Python dicts become ordered association
lists with overwrite-on-assignment semantics, and the concrete `re` patterns
used by the source are interpreted by a small backtracking regex engine that
mirrors CPython `re` semantics (leftmost match, alternation tries the left
branch first, greedy/lazy quantifiers, one capturing group) on the ASCII
fragment exercised by the analysed inputs.
-/

namespace Resume

/-! ## Python string primitives, over `List Char` (ASCII fragment) -/

/-- `str.lower()` on ASCII text. -/
def toLowerL (s : List Char) : List Char := s.map Char.toLower

/-- `str.strip()` (whitespace at both ends). -/
def trimL (s : List Char) : List Char :=
  ((s.dropWhile Char.isWhitespace).reverse.dropWhile Char.isWhitespace).reverse

def isPrefixL : List Char → List Char → Bool
  | [], _ => true
  | _ :: _, [] => false
  | c :: p, d :: s => c == d && isPrefixL p s

/-- Python `pat in s` (substring containment). -/
def isSubstrL (pat s : List Char) : Bool :=
  match s with
  | [] => isPrefixL pat []
  | _ :: rest => isPrefixL pat s || isSubstrL pat rest

/-- `str.count(pat)`: non-overlapping occurrence count (fuelled recursion; the
source only counts non-empty patterns, for which the fuel `s.length` is
enough). -/
def countSubstrAux : Nat → List Char → List Char → Nat
  | 0, _, _ => 0
  | f + 1, s, pat =>
    match s with
    | [] => 0
    | _ :: rest =>
      if isPrefixL pat s then 1 + countSubstrAux f (s.drop pat.length) pat
      else countSubstrAux f rest pat

def countSubstrL (s pat : List Char) : Nat := countSubstrAux s.length s pat

/-- Split at every character satisfying `p` (Python `str.split(sep)` keeps
empty pieces). -/
def splitIfL (p : Char → Bool) : List Char → List (List Char)
  | [] => [[]]
  | c :: rest =>
    let r := splitIfL p rest
    if p c then [] :: r
    else
      match r with
      | [] => [[c]]
      | h :: t => (c :: h) :: t

/-- `text.split('\n')`. -/
def splitLinesL (s : List Char) : List (List Char) := splitIfL (fun c => c == '\n') s

/-- `sep.join(parts)`. -/
def joinL (sep : List Char) : List (List Char) → List Char
  | [] => []
  | [x] => x
  | x :: xs => x ++ sep ++ joinL sep xs

/-- Python `pat in s` on `String`s. -/
def substrS (pat s : String) : Bool := isSubstrL pat.data s.data

/-- Python `s.count(pat)` on `String`s. -/
def countS (s pat : String) : Nat := countSubstrL s.data pat.data

/-- `str.lower()` on `String`s. -/
def lowerS (s : String) : String := ⟨toLowerL s.data⟩

/-- `len(text.split())`: Python whitespace-run splitting drops empty pieces. -/
def wordCount (text : String) : Nat :=
  ((splitIfL (fun c => c.isWhitespace) text.data).filter (fun w => !w.isEmpty)).length

/-- `str.endswith(suffix)`. -/
def endsWithS (s suffix : String) : Bool := isPrefixL suffix.data.reverse s.data.reverse

/-- The apostrophe character, `'`. -/
def aposC : Char := Char.ofNat 39

/-! ## A small backtracking regex engine (CPython `re` semantics)

A matcher state is `(before, after)` where `before` is the reversed consumed
prefix (kept for `\b` word-boundary tests) and `after` the remaining input.
`mrun` returns every way the pattern can match a prefix of `after`, in
CPython backtracking priority order: the head of the list is the match
CPython's engine commits to.  At most one capturing group occurs in each of
the source's patterns, so a single optional capture is threaded through. -/

inductive RE where
  | eps
  | cls (p : Char → Bool)
  | seq (a b : RE)
  | alt (a b : RE)
  | starG (a : RE)
  | starL (a : RE)
  | group (a : RE)
  | eos
  | wb
deriving Inhabited

/-- Python `\w` (ASCII). -/
def isWordChar (c : Char) : Bool := c.isAlphanum || c == '_'

/-- `\b` holds between two characters iff exactly one side is a word
character; at the text edges it holds iff the inner side is one. -/
def boundaryOk (b a : Option Char) : Bool :=
  match b, a with
  | none, none => false
  | none, some c => isWordChar c
  | some c, none => isWordChar c
  | some c, some d => isWordChar c != isWordChar d

def RE.chr (c : Char) : RE := .cls (fun d => d == c)

/-- A literal string, as a sequence of single-character nodes. -/
def RE.lit (w : String) : RE := (w.data.map RE.chr).foldr RE.seq .eps

/-- `r?` (greedy). -/
def RE.opt (r : RE) : RE := .alt r .eps

/-- `r+` (greedy). -/
def RE.plusG (r : RE) : RE := .seq r (.starG r)

/-- `r+?` (lazy). -/
def RE.plusL (r : RE) : RE := .seq r (.starL r)

/-- `r{n}`. -/
def RE.rep (r : RE) : Nat → RE
  | 0 => .eps
  | n + 1 => .seq r (RE.rep r n)

/-- `r{n,}` (greedy). -/
def RE.repAtLeast (r : RE) (n : Nat) : RE := .seq (RE.rep r n) (.starG r)

abbrev MState := List Char × List Char

/-- One backtracking run of a pattern from a state.  Results are in CPython
priority order; `starG`/`starL` iterations are required to consume input
(CPython likewise never repeats an empty-width star iteration).  The fuel
only needs to cover pattern depth plus star iterations, both bounded by the
input length plus the (constant) pattern size. -/
def mrun : Nat → RE → MState → List (MState × Option (List Char))
  | 0, _, _ => []
  | _ + 1, .eps, st => [(st, none)]
  | _ + 1, .cls p, (b, a) =>
    match a with
    | [] => []
    | c :: rest => if p c then [((c :: b, rest), none)] else []
  | f + 1, .seq r1 r2, st =>
    (mrun f r1 st).flatMap (fun s1 =>
      (mrun f r2 s1.1).map (fun s2 => (s2.1, s1.2.orElse (fun _ => s2.2))))
  | f + 1, .alt r1 r2, st => mrun f r1 st ++ mrun f r2 st
  | f + 1, .starG r, st =>
    ((mrun f r st).filter (fun s1 => s1.1.2.length < st.2.length)).flatMap
      (fun s1 => (mrun f (.starG r) s1.1).map
        (fun s2 => (s2.1, s1.2.orElse (fun _ => s2.2)))) ++ [(st, none)]
  | f + 1, .starL r, st =>
    (st, none) :: ((mrun f r st).filter (fun s1 => s1.1.2.length < st.2.length)).flatMap
      (fun s1 => (mrun f (.starL r) s1.1).map
        (fun s2 => (s2.1, s1.2.orElse (fun _ => s2.2))))
  | f + 1, .group r, (b, a) =>
    (mrun f r (b, a)).map (fun s1 =>
      (s1.1, some ((s1.1.1.take (s1.1.1.length - b.length)).reverse)))
  | _ + 1, .eos, (b, a) => if a.isEmpty then [((b, a), none)] else []
  | _ + 1, .wb, (b, a) => if boundaryOk b.head? a.head? then [((b, a), none)] else []

/-- The match CPython commits to at this position, if any. -/
def firstMatchAt (re : RE) (b a : List Char) : Option (MState × Option (List Char)) :=
  (mrun (a.length + 300) re (b, a)).head?

/-- `re.findall`: scan left to right, take the leftmost match, record group 1
(or the whole match when the pattern has no group), resume after the match. -/
def refindAux : Nat → RE → List Char → List Char → List (List Char)
  | 0, _, _, _ => []
  | f + 1, re, b, a =>
    match firstMatchAt re b a with
    | some ((b', a'), g) =>
      let whole := (b'.take (b'.length - b.length)).reverse
      let cap := g.getD whole
      if a'.length < a.length then cap :: refindAux f re b' a'
      else
        match a with
        | [] => [cap]
        | c :: rest => cap :: refindAux f re (c :: b) rest
    | none =>
      match a with
      | [] => []
      | c :: rest => refindAux f re (c :: b) rest

def refindall (re : RE) (s : List Char) : List (List Char) :=
  refindAux (s.length + 1) re [] s

/-- `re.search(...).group()`: the whole text of the leftmost match. -/
def researchAux : Nat → RE → List Char → List Char → Option (List Char)
  | 0, _, _, _ => none
  | f + 1, re, b, a =>
    match firstMatchAt re b a with
    | some ((b', _), _) => some ((b'.take (b'.length - b.length)).reverse)
    | none =>
      match a with
      | [] => none
      | c :: rest => researchAux f re (c :: b) rest

def research (re : RE) (s : List Char) : Option (List Char) :=
  researchAux (s.length + 1) re [] s

/-- `re.search(...) is not None`. -/
def rematches (re : RE) (s : List Char) : Bool := (research re s).isSome

/-! Character classes used by the source's patterns. -/

def clsDigit : RE := .cls (fun c => c.isDigit)
def clsWs : RE := .cls (fun c => c.isWhitespace)
def clsWord : RE := .cls isWordChar
/-- `[\w\s]`. -/
def clsWordWs : RE := .cls (fun c => isWordChar c || c.isWhitespace)
/-- `[\w\s,.-]`. -/
def clsWordWsPunct : RE :=
  .cls (fun c => isWordChar c || c.isWhitespace || c == ',' || c == '.' || c == '-')
/-- `[^.]`. -/
def clsNotDot : RE := .cls (fun c => c != '.')
/-- `[:,]`. -/
def clsColonComma : RE := .cls (fun c => c == ':' || c == ',')
/-- `[\'s]`. -/
def clsAposS : RE := .cls (fun c => c == aposC || c == 's')
/-- `[\w-]`. -/
def clsWordDash : RE := .cls (fun c => isWordChar c || c == '-')

/-! ## `ResumeProcessor.__init__`: the keyword dictionaries

Python dicts preserve insertion order, so they are embedded as ordered
association lists; declaration order below matches the source exactly. -/

/-- `self.industry_keywords` (resume_processor.py, lines 27-52):
industry → category → keyword list. -/
def industry_keywords : List (String × List (String × List String)) :=
  [("technology",
    [("programming", ["python", "java", "javascript", "react", "angular", "nodejs", "sql",
        "mongodb", "docker", "kubernetes", "aws", "azure", "git", "agile", "scrum", "ci/cd",
        "machine learning", "ai", "data science", "api", "microservices", "devops"]),
     ("soft_skills", ["problem-solving", "teamwork", "communication", "leadership",
        "collaboration", "critical thinking", "innovation", "adaptability"]),
     ("certifications", ["aws certified", "azure certified", "google cloud", "cissp",
        "comptia", "certified scrum master", "pmp"]),
     ("action_verbs", ["developed", "implemented", "designed", "architected", "optimized",
        "automated", "scaled", "migrated", "deployed", "integrated"])]),
   ("marketing",
    [("skills", ["digital marketing", "seo", "sem", "social media", "content marketing",
        "email marketing", "analytics", "google ads", "facebook ads",
        "conversion optimization", "a/b testing", "crm", "marketing automation"]),
     ("tools", ["google analytics", "hubspot", "mailchimp", "salesforce", "hootsuite",
        "canva", "photoshop", "wordpress"]),
     ("soft_skills", ["creativity", "strategic thinking", "communication",
        "project management", "data analysis", "brand management"]),
     ("action_verbs", ["launched", "increased", "generated", "managed", "created",
        "analyzed", "optimized", "drove", "executed", "coordinated"])]),
   ("finance",
    [("skills", ["financial analysis", "budgeting", "forecasting", "risk management",
        "investment analysis", "portfolio management", "financial modeling", "valuation",
        "accounting", "auditing", "compliance", "treasury management"]),
     ("tools", ["excel", "bloomberg", "sap", "quickbooks", "tableau", "power bi",
        "python", "r", "sql"]),
     ("certifications", ["cfa", "cpa", "frm", "caia", "series 7", "series 66"]),
     ("action_verbs", ["analyzed", "evaluated", "managed", "optimized", "forecasted",
        "assessed", "monitored", "advised", "structured", "executed"])]),
   ("healthcare",
    [("skills", ["patient care", "clinical assessment", "medical records",
        "hipaa compliance", "electronic health records", "medical terminology",
        "quality assurance", "infection control", "care coordination"]),
     ("tools", ["epic", "cerner", "meditech", "allscripts", "emr systems"]),
     ("certifications", ["bls", "acls", "rn", "lpn", "cna", "medical license",
        "board certification"]),
     ("action_verbs", ["administered", "assessed", "documented", "coordinated",
        "monitored", "educated", "collaborated", "implemented", "evaluated", "managed"])])]

/-- `section_headers` (resume_processor.py, lines 156-163), in declaration
order: the header-matching loop tests categories in this order and the first
category with a matching keyword wins. -/
def section_headers : List (String × List String) :=
  [("experience", ["experience", "work history", "employment", "professional experience",
      "work experience"]),
   ("education", ["education", "academic background", "qualifications"]),
   ("skills", ["skills", "technical skills", "competencies", "expertise"]),
   ("summary", ["summary", "profile", "objective", "professional summary",
      "career objective"]),
   ("projects", ["projects", "key projects", "notable projects"]),
   ("certifications", ["certifications", "certificates", "licenses"])]

/-! ## Data model -/

/-- `extract_contact_info`'s result dict.  A Python value of `None` or `""` is
falsy; `truthy` below reproduces the `if contact_info['email']:` tests. -/
structure ContactInfo where
  email : Option String
  phone : Option String
  linkedin : Option String
  github : Option String
deriving Repr, DecidableEq

/-- Python truthiness of an optional string (`None` and `""` are falsy). -/
def truthy : Option String → Bool
  | none => false
  | some s => !s.isEmpty

/-- `analyze_keywords`' result dict.  The `'general'` fallback branch of the
source returns a dict *without* the `total_found` / `total_possible` keys, so
those two fields are `Option`s (`none` = key absent). -/
structure KeywordAnalysis where
  score : ℚ
  found_keywords : List String
  missing_keywords : List String
  total_found : Option Nat
  total_possible : Option Nat
deriving Repr, DecidableEq

/-- One entry of `generate_recommendations`' result list.  The varying extra
key of the source dicts (`keywords` / `sections` / `examples` /
`suggestions`; absent for the contact entry) is modelled by the single
`payload` list (empty when the key is absent). -/
structure Recommendation where
  type : String
  priority : String
  title : String
  description : String
  action : String
  payload : List String
deriving Repr, DecidableEq

/-! ## Ordered dicts with Python assignment semantics -/

/-- `d[k] = v` on a Python dict: overwrite in place if the key exists,
otherwise append at the end. -/
def upsert : List (String × String) → String → String → List (String × String)
  | [], k, v => [(k, v)]
  | (k', v') :: rest, k, v =>
    if k' == k then (k, v) :: rest else (k', v') :: upsert rest k v

/-! ## `ResumeProcessor.extract_sections` (lines 149-186) -/

/-- The `line.lower().strip()` normalisation applied to each line. -/
def lineLower (line : List Char) : List Char := trimL (toLowerL line)

/-- The header test of the inner loop: the first `section_headers` entry one
of whose keywords occurs in the normalised line (`break` on first hit). -/
def findSectionKey (ll : List Char) : Option String :=
  section_headers.findSome? (fun p =>
    if p.2.any (fun h => isSubstrL h.data ll) then some p.1 else none)

/-- Loop state: `(current_section, section_content, sections)`. -/
abbrev SecState := Option String × List (List Char) × List (String × String)

/-- The `if current_section and section_content:` flush. -/
def flushSection : SecState → List (String × String)
  | (some c, cont, secs) =>
    if cont.isEmpty then secs else upsert secs c ⟨joinL ['\n'] cont⟩
  | (none, _, secs) => secs

/-- One iteration of the `for line in text_lines:` loop. -/
def stepLine (st : SecState) (line : List Char) : SecState :=
  match findSectionKey (lineLower line) with
  | some k => (some k, [], flushSection st)
  | none =>
    match st.1 with
    | some _ => (st.1, st.2.1 ++ [line], st.2.2)
    | none => st

/-- `extract_sections`: fold the loop over `text.split('\n')`, then flush the
last open section. -/
def extract_sections (text : String) : List (String × String) :=
  flushSection ((splitLinesL text.data).foldl stepLine (none, [], []))

/-! ## `ResumeProcessor.extract_contact_info` (lines 188-219) -/

/-- `\b[A-Za-z0-9._%+-]+@[A-Za-z0-9.-]+\.[A-Z|a-z]{2,}\b` (the literal `|`
inside the final class is kept, as in the source). -/
def emailPat : RE :=
  .seq .wb <|
  .seq (RE.plusG (.cls (fun c => c.isAlphanum || c == '.' || c == '_' || c == '%' ||
    c == '+' || c == '-'))) <|
  .seq (RE.chr '@') <|
  .seq (RE.plusG (.cls (fun c => c.isAlphanum || c == '.' || c == '-'))) <|
  .seq (RE.chr '.') <|
  .seq (RE.repAtLeast (.cls (fun c => c.isAlpha || c == '|')) 2) <|
  .wb

/-- `phone_formats`, tried in order, first match wins:
`\(\d{3}\)\s\d{3}-\d{4}`, `\d{3}-\d{3}-\d{4}`, `\d{3}\.\d{3}\.\d{4}`. -/
def phonePats : List RE :=
  [.seq (RE.chr '(') <| .seq (RE.rep clsDigit 3) <| .seq (RE.chr ')') <| .seq clsWs <|
     .seq (RE.rep clsDigit 3) <| .seq (RE.chr '-') <| RE.rep clsDigit 4,
   .seq (RE.rep clsDigit 3) <| .seq (RE.chr '-') <| .seq (RE.rep clsDigit 3) <|
     .seq (RE.chr '-') <| RE.rep clsDigit 4,
   .seq (RE.rep clsDigit 3) <| .seq (RE.chr '.') <| .seq (RE.rep clsDigit 3) <|
     .seq (RE.chr '.') <| RE.rep clsDigit 4]

/-- `linkedin\.com/in/[\w-]+`. -/
def linkedinPat : RE :=
  .seq (RE.lit "linkedin") <| .seq (RE.chr '.') <| .seq (RE.lit "com/in/") <|
  RE.plusG clsWordDash

/-- `github\.com/[\w-]+`. -/
def githubPat : RE :=
  .seq (RE.lit "github") <| .seq (RE.chr '.') <| .seq (RE.lit "com/") <|
  RE.plusG clsWordDash

def extract_contact_info (text : String) : ContactInfo :=
  { email := (research emailPat text.data).map (⟨·⟩)
    phone := (phonePats.findSome? (fun p => research p text.data)).map (⟨·⟩)
    linkedin := (research linkedinPat (toLowerL text.data)).map (⟨·⟩)
    github := (research githubPat (toLowerL text.data)).map (⟨·⟩) }

/-! ## `ResumeProcessor.detect_industry` (lines 221-236) -/

/-- The inner double loop: occurrences of every keyword of every category
(`if keyword.lower() in text: score += text.count(keyword.lower())`). -/
def industryScore (text : String) (cats : List (String × List String)) : Nat :=
  cats.foldl (fun score p =>
    p.2.foldl (fun score kw =>
      if substrS (lowerS kw) text then score + countS text (lowerS kw) else score) score) 0

/-- `industry_scores`, in dictionary order. -/
def industryScores (text : String) : List (String × Nat) :=
  industry_keywords.map (fun p => (p.1, industryScore text p.2))

/-- `max(iterable, key=...)` keeps the current best on ties, so the first
key attaining the maximum wins. -/
def goPair (b : String × Nat) : List (String × Nat) → String × Nat
  | [] => b
  | p :: rest => if p.2 > b.2 then goPair p rest else goPair b rest

/-- `max(industry_scores, key=industry_scores.get)` (`none` on an empty
dict, which makes the caller return `'general'`). -/
def maxByValueFirst : List (String × Nat) → Option String
  | [] => none
  | p :: rest => some (goPair p rest).1

def detect_industry (text : String) : String :=
  match maxByValueFirst (industryScores text) with
  | some ind => ind
  | none => "general"

/-! ## `ResumeProcessor.analyze_keywords` (lines 238-264) -/

/-- Keyword scan parameterised by the dictionary (the source reads
`self.industry_keywords`; `analyze_keywords` below instantiates it). -/
def analyze_keywords_with (dict : List (String × List (String × List String)))
    (text : String) (industry : String) : KeywordAnalysis :=
  match dict.lookup industry with
  | none => ⟨50, [], [], none, none⟩
  | some industry_data =>
    let scan := industry_data.foldl (fun acc p =>
      p.2.foldl (fun acc kw =>
        if substrS (lowerS kw) text then (acc.1 ++ [kw], acc.2.1, acc.2.2 + 1)
        else (acc.1, acc.2.1 ++ [kw], acc.2.2 + 1)) acc) (([], [], 0) :
        List String × List String × Nat)
    let found_keywords := scan.1
    let missing_keywords := scan.2.1
    let total_possible := scan.2.2
    let keyword_score : ℚ :=
      if total_possible > 0 then ((found_keywords.length : ℚ) / (total_possible : ℚ)) * 100
      else 0
    ⟨min 100 keyword_score, found_keywords.take 20, missing_keywords.take 10,
     some found_keywords.length, some total_possible⟩

def analyze_keywords (text : String) (industry : String) : KeywordAnalysis :=
  analyze_keywords_with industry_keywords text industry

/-! ## `ResumeProcessor.calculate_ats_score` (lines 266-292) -/

def calculate_ats_score (text : String) (sections : List (String × String))
    (contact_info : ContactInfo) (keyword_analysis : KeywordAnalysis) : ℚ :=
  let required_sections := ["experience", "education", "skills"]
  let section_score : ℚ :=
    ((required_sections.countP (fun s => (sections.lookup s).isSome) : ℚ) /
      (required_sections.length : ℚ)) * 40
  let contact_score : ℚ :=
    (if truthy contact_info.email then 10 else 0) +
    (if truthy contact_info.phone then 10 else 0)
  let keyword_score : ℚ := keyword_analysis.score / 100 * 30
  let format_score : ℚ :=
    10 - (if wordCount text < 200 then 3 else 0) - (if wordCount text > 800 then 2 else 0)
  min 100 (section_score + contact_score + keyword_score + format_score)

/-! ## `ResumeProcessor.identify_strengths` / `identify_weaknesses`
(lines 294-337) -/

def identify_strengths (text : String) (sections : List (String × String))
    (keyword_analysis : KeywordAnalysis) : List String :=
  (if keyword_analysis.score > 70 then ["Strong industry keyword optimization"] else []) ++
  (if sections.length ≥ 5 then ["Well-structured with comprehensive sections"] else []) ++
  (match sections.lookup "experience" with
   | some exp =>
     if wordCount exp > 100 then ["Detailed work experience descriptions"] else []
   | none => []) ++
  (if ["achieved", "increased", "improved", "reduced", "generated"].any
      (fun v => substrS v (lowerS text)) then ["Includes quantifiable achievements"]
   else []) ++
  (if wordCount text > 300 then ["Adequate length and detail"] else [])

def identify_weaknesses (text : String) (sections : List (String × String))
    (contact_info : ContactInfo) (keyword_analysis : KeywordAnalysis) : List String :=
  (if !truthy contact_info.email then ["Missing email address"] else []) ++
  (if !truthy contact_info.phone then ["Missing phone number"] else []) ++
  (if keyword_analysis.score < 40 then ["Insufficient industry-relevant keywords"]
   else []) ++
  (if (sections.lookup "summary").isNone then ["Missing professional summary section"]
   else []) ++
  (if wordCount text < 250 then ["Resume content too brief"] else []) ++
  (if !text.data.any Char.isDigit then ["No quantified achievements or metrics"] else [])

/-! ## `ResumeProcessor.generate_recommendations` (lines 339-410) -/

/-- `\d+%|\$\d+|\d+\+` (the quantified-achievements test). -/
def metricPat : RE :=
  .alt (.seq (RE.plusG clsDigit) (RE.chr '%'))
    (.alt (.seq (RE.chr '$') (RE.plusG clsDigit))
      (.seq (RE.plusG clsDigit) (RE.chr '+')))

def weak_verbs : List String := ["responsible for", "duties included", "worked on"]

def generate_recommendations (text : String) (sections : List (String × String))
    (contact_info : ContactInfo) (keyword_analysis : KeywordAnalysis)
    (industry : String) (_ats_score : ℚ) : List Recommendation :=
  (if keyword_analysis.score < 60 then
    let missing_keywords := keyword_analysis.missing_keywords.take 5
    [{ type := "keywords", priority := "high", title := "Add Industry Keywords",
       description := "Include these relevant keywords: " ++
         String.intercalate ", " missing_keywords,
       action := "keyword_optimization", payload := missing_keywords }]
   else []) ++
  (if !truthy contact_info.email || !truthy contact_info.phone then
    let missing_contact :=
      (if !truthy contact_info.email then ["email"] else []) ++
      (if !truthy contact_info.phone then ["phone number"] else [])
    [{ type := "contact", priority := "high", title := "Add Missing Contact Information",
       description := "Include your " ++ String.intercalate " and " missing_contact,
       action := "add_contact_info", payload := [] }]
   else []) ++
  (let missing_sections :=
    ["experience", "education", "skills", "summary"].filter
      (fun required => (sections.lookup required).isNone)
   if !missing_sections.isEmpty then
    [{ type := "structure", priority := "medium", title := "Add Missing Sections",
       description := "Include these sections: " ++
         String.intercalate ", " missing_sections,
       action := "add_sections", payload := missing_sections }]
   else []) ++
  (if !rematches metricPat text.data then
    [{ type := "content", priority := "medium", title := "Add Quantifiable Achievements",
       description :=
         "Include specific numbers, percentages, and metrics to demonstrate impact",
       action := "add_metrics",
       payload := ["Increased sales by 25%", "Managed team of 10+",
         "Reduced costs by $50K"] }]
   else []) ++
  (if weak_verbs.any (fun v => substrS v (lowerS text)) then
    let strong_verbs :=
      (((industry_keywords.lookup industry).getD []).lookup "action_verbs").getD []
    [{ type := "content", priority := "low", title := "Strengthen Action Verbs",
       description := "Replace weak phrases with strong action verbs",
       action := "improve_verbs", payload := strong_verbs.take 8 }]
   else [])

/-! ## `ResumeProcessor.analyze_resume_content` / `parse_resume` (lines 88-147)

`sentence_count` and `readability_score` come from the external NLTK and
textstat libraries and are read by no claim; those two fields are omitted
from the embedded record. -/

structure ResumeAnalysis where
  text : String
  word_count : Nat
  sections : List (String × String)
  contact_info : ContactInfo
  detected_industry : String
  keyword_analysis : KeywordAnalysis
  ats_score : ℚ
  recommendations : List Recommendation
  strengths : List String
  weaknesses : List String
deriving Repr

def analyze_resume_content (text : String) : ResumeAnalysis :=
  let text_lower := lowerS text
  let word_count := wordCount text
  let sections := extract_sections text
  let contact_info := extract_contact_info text
  let detected_industry := detect_industry text_lower
  let keyword_analysis := analyze_keywords text_lower detected_industry
  let ats_score := calculate_ats_score text sections contact_info keyword_analysis
  { text := text, word_count := word_count, sections := sections,
    contact_info := contact_info, detected_industry := detected_industry,
    keyword_analysis := keyword_analysis, ats_score := ats_score,
    recommendations := generate_recommendations text sections contact_info
      keyword_analysis detected_industry ats_score,
    strengths := identify_strengths text sections keyword_analysis,
    weaknesses := identify_weaknesses text sections contact_info keyword_analysis }

/-- Modelled from the spec: PDF text extraction is performed by the external
PyPDF2 library, which is not part of the analysed sources.  The spec (§4.1,
§7) fixes only its failure contract: an unreadable or empty document makes
the `except` branch of `extract_text_from_pdf` return `""`.  The empty
buffer — the only input any claim exercises — is unreadable, and the model
conservatively routes every buffer through that failure contract. -/
def extract_text_from_pdf (_file_bytes : List Nat) : String := ""

/-- Modelled from the spec: DOCX extraction (external python-docx library),
with the same failure contract as `extract_text_from_pdf`. -/
def extract_text_from_docx (_file_bytes : List Nat) : String := ""

/-- `file_bytes.decode('utf-8', errors='ignore')`, restricted to the ASCII
fragment: bytes below 128 decode to themselves and other bytes are dropped
like invalid sequences (only the empty buffer is exercised by the claims,
and on it the real decoder also returns `""`). -/
def decode_utf8_ignore (file_bytes : List Nat) : String :=
  ⟨(file_bytes.filter (fun b => b < 128)).map Char.ofNat⟩

/-- `parse_resume` either returns the error dict
`{"error": "Could not extract text from resume"}` or the analysis. -/
inductive ParseResult where
  | error (msg : String)
  | ok (analysis : ResumeAnalysis)

def parse_resume (file_bytes : List Nat) (filename : String) : ParseResult :=
  let text :=
    if endsWithS (lowerS filename) ".pdf" then extract_text_from_pdf file_bytes
    else if endsWithS (lowerS filename) ".docx" || endsWithS (lowerS filename) ".doc" then
      extract_text_from_docx file_bytes
    else decode_utf8_ignore file_bytes
  if (trimL text.data).isEmpty then ParseResult.error "Could not extract text from resume"
  else ParseResult.ok (analyze_resume_content text)

/-! ## `advanced_main.analyze_resume_content` (advanced_main.py, lines 81-129)

The caller-side wrapper: on the `{"error": ...}` dict it substitutes the
documented fallback analysis.  Fields of the success dict that merely copy
external-library values (`readability_score`, `word_count`, `sections`,
`contact_info`) are read by no claim and omitted from the record. -/

/-- The nested `"analysis"` sub-dict of the wrapper's result. -/
structure AdvAnalysis where
  strengths : List String
  weaknesses : List String
  suggestions : List String
  keyword_score : ℚ
  format_score : ℚ
  content_score : ℚ
deriving Repr

structure AdvResult where
  industry : String
  experience_level : String
  ats_score : ℚ
  analysis : AdvAnalysis
  text : String
  recommendations : List Recommendation
deriving Repr

/-- The fallback returned when `parse_resume` yields the error dict
(advanced_main.py, lines 88-104). -/
def fallbackAnalysis : AdvResult :=
  { industry := "general", experience_level := "mid", ats_score := 60,
    analysis :=
      { strengths := ["Resume uploaded successfully"],
        weaknesses := ["Could not fully parse resume content"],
        suggestions := ["Try uploading in PDF or DOCX format"],
        keyword_score := 60, format_score := 70, content_score := 60 },
    text := "Resume content could not be extracted", recommendations := [] }

def analyze_resume_content_adv (file_bytes : List Nat) (filename : String) : AdvResult :=
  match parse_resume file_bytes filename with
  | ParseResult.error _ => fallbackAnalysis
  | ParseResult.ok analysis =>
    { industry := analysis.detected_industry, experience_level := "mid",
      ats_score := analysis.ats_score,
      analysis :=
        { strengths := analysis.strengths, weaknesses := analysis.weaknesses,
          suggestions := analysis.recommendations.map (·.description),
          keyword_score := analysis.keyword_analysis.score,
          format_score := min 100 (analysis.ats_score + 10),
          content_score := analysis.ats_score },
      text := analysis.text, recommendations := analysis.recommendations }

/-! ## `JobMatcher` (job_matcher.py)

The `requirement_patterns` regexes, written as engine terms in the order the
source declares them. -/

/-- `(\d+)[\+]?\s*years?\s*(?:of\s*)?(?:experience|exp)`. -/
def expYearsPat1 : RE :=
  .seq (.group (RE.plusG clsDigit)) <| .seq (RE.opt (RE.chr '+')) <|
  .seq (.starG clsWs) <| .seq (RE.lit "year") <| .seq (RE.opt (RE.chr 's')) <|
  .seq (.starG clsWs) <| .seq (RE.opt (.seq (RE.lit "of") (.starG clsWs))) <|
  .alt (RE.lit "experience") (RE.lit "exp")

/-- `(\d+)[\+]?\s*years?\s*(?:in|with|of)`. -/
def expYearsPat2 : RE :=
  .seq (.group (RE.plusG clsDigit)) <| .seq (RE.opt (RE.chr '+')) <|
  .seq (.starG clsWs) <| .seq (RE.lit "year") <| .seq (RE.opt (RE.chr 's')) <|
  .seq (.starG clsWs) <|
  .alt (RE.lit "in") (.alt (RE.lit "with") (RE.lit "of"))

/-- `minimum\s*(\d+)\s*years?`. -/
def expYearsPat3 : RE :=
  .seq (RE.lit "minimum") <| .seq (.starG clsWs) <| .seq (.group (RE.plusG clsDigit)) <|
  .seq (.starG clsWs) <| .seq (RE.lit "year") <| RE.opt (RE.chr 's')

/-- `at\s*least\s*(\d+)\s*years?`. -/
def expYearsPat4 : RE :=
  .seq (RE.lit "at") <| .seq (.starG clsWs) <| .seq (RE.lit "least") <|
  .seq (.starG clsWs) <| .seq (.group (RE.plusG clsDigit)) <| .seq (.starG clsWs) <|
  .seq (RE.lit "year") <| RE.opt (RE.chr 's')

def experiencePats : List RE := [expYearsPat1, expYearsPat2, expYearsPat3, expYearsPat4]

/-- `experience\s*(?:in|with|of)\s*([\w\s,.-]+?)(?:\.|,|;|\n|$)` — note the
lazy `+?`. -/
def specificExpPat : RE :=
  .seq (RE.lit "experience") <| .seq (.starG clsWs) <|
  .seq (.alt (RE.lit "in") (.alt (RE.lit "with") (RE.lit "of"))) <|
  .seq (.starG clsWs) <| .seq (.group (RE.plusL clsWordWsPunct)) <|
  .alt (RE.chr '.') (.alt (RE.chr ',') (.alt (RE.chr ';') (.alt (RE.chr '\n') .eos)))

/-- `bachelor[\'s]?\s*(?:degree)?(?:\s*in\s*[\w\s]+)?`. -/
def eduPatBachelor : RE :=
  .seq (RE.lit "bachelor") <| .seq (RE.opt clsAposS) <| .seq (.starG clsWs) <|
  .seq (RE.opt (RE.lit "degree")) <|
  RE.opt (.seq (.starG clsWs) (.seq (RE.lit "in") (.seq (.starG clsWs)
    (RE.plusG clsWordWs))))

/-- `master[\'s]?\s*(?:degree)?(?:\s*in\s*[\w\s]+)?`. -/
def eduPatMaster : RE :=
  .seq (RE.lit "master") <| .seq (RE.opt clsAposS) <| .seq (.starG clsWs) <|
  .seq (RE.opt (RE.lit "degree")) <|
  RE.opt (.seq (.starG clsWs) (.seq (RE.lit "in") (.seq (.starG clsWs)
    (RE.plusG clsWordWs))))

/-- `phd|doctorate`. -/
def eduPatPhd : RE := .alt (RE.lit "phd") (RE.lit "doctorate")

/-- `associate[\'s]?\s*degree`. -/
def eduPatAssociate : RE :=
  .seq (RE.lit "associate") <| .seq (RE.opt clsAposS) <| .seq (.starG clsWs) <|
  RE.lit "degree"

/-- `high\s*school|diploma`. -/
def eduPatHighSchool : RE :=
  .alt (.seq (RE.lit "high") (.seq (.starG clsWs) (RE.lit "school"))) (RE.lit "diploma")

/-- The education patterns paired with the degree level the source assigns by
testing which keyword occurs in the *pattern string* (`'bachelor' in
pattern`, `'master' in pattern`, `'phd' in pattern or 'doctorate' in
pattern`): the third pattern's string contains `phd`, the last two contain
none of the tested keywords. -/
def educationPats : List (RE × Option String) :=
  [(eduPatBachelor, some "bachelor"), (eduPatMaster, some "master"),
   (eduPatPhd, some "doctorate"), (eduPatAssociate, none), (eduPatHighSchool, none)]

/-- `(?:bachelor|master|degree)(?:[\'s]?)?\s*in\s*([\w\s]+)`. -/
def preferredFieldsPat : RE :=
  .seq (.alt (RE.lit "bachelor") (.alt (RE.lit "master") (RE.lit "degree"))) <|
  .seq (RE.opt (RE.opt clsAposS)) <| .seq (.starG clsWs) <| .seq (RE.lit "in") <|
  .seq (.starG clsWs) <| .group (RE.plusG clsWordWs)

/-- `certified?\s*(?:in\s*)?([\w\s]+)`, `certification\s*(?:in\s*)?([\w\s]+)`,
`license\s*(?:in\s*)?([\w\s]+)`. -/
def certPats : List RE :=
  [.seq (RE.lit "certifie") <| .seq (RE.opt (RE.chr 'd')) <| .seq (.starG clsWs) <|
     .seq (RE.opt (.seq (RE.lit "in") (.starG clsWs))) <| .group (RE.plusG clsWordWs),
   .seq (RE.lit "certification") <| .seq (.starG clsWs) <|
     .seq (RE.opt (.seq (RE.lit "in") (.starG clsWs))) <| .group (RE.plusG clsWordWs),
   .seq (RE.lit "license") <| .seq (.starG clsWs) <|
     .seq (RE.opt (.seq (RE.lit "in") (.starG clsWs))) <| .group (RE.plusG clsWordWs)]

/-- `(?:required|must\s*have|mandatory)[:,]?\s*([^.]+)` and
`(?:experience\s*(?:in|with)|proficient\s*(?:in|with))[:,]?\s*([^.]+)`. -/
def requiredSkillPats : List RE :=
  [.seq (.alt (RE.lit "required")
      (.alt (.seq (RE.lit "must") (.seq (.starG clsWs) (RE.lit "have")))
        (RE.lit "mandatory"))) <|
     .seq (RE.opt clsColonComma) <| .seq (.starG clsWs) <| .group (RE.plusG clsNotDot),
   .seq (.alt (.seq (RE.lit "experience") (.seq (.starG clsWs)
        (.alt (RE.lit "in") (RE.lit "with"))))
      (.seq (RE.lit "proficient") (.seq (.starG clsWs)
        (.alt (RE.lit "in") (RE.lit "with"))))) <|
     .seq (RE.opt clsColonComma) <| .seq (.starG clsWs) <| .group (RE.plusG clsNotDot)]

/-- `(?:preferred|nice\s*to\s*have|bonus|plus)[:,]?\s*([^.]+)` and
`(?:familiarity\s*with|knowledge\s*of)[:,]?\s*([^.]+)`. -/
def preferredSkillPats : List RE :=
  [.seq (.alt (RE.lit "preferred")
      (.alt (.seq (RE.lit "nice") (.seq (.starG clsWs) (.seq (RE.lit "to")
          (.seq (.starG clsWs) (RE.lit "have")))))
        (.alt (RE.lit "bonus") (RE.lit "plus")))) <|
     .seq (RE.opt clsColonComma) <| .seq (.starG clsWs) <| .group (RE.plusG clsNotDot),
   .seq (.alt (.seq (RE.lit "familiarity") (.seq (.starG clsWs) (RE.lit "with")))
      (.seq (RE.lit "knowledge") (.seq (.starG clsWs) (RE.lit "of")))) <|
     .seq (RE.opt clsColonComma) <| .seq (.starG clsWs) <| .group (RE.plusG clsNotDot)]

/-- `self.skill_categories` (job_matcher.py, lines 39-68). -/
def skill_categories : List (String × List String) :=
  [("programming_languages", ["python", "java", "javascript", "c++", "c#", "php", "ruby",
      "go", "rust", "swift", "kotlin", "scala", "r", "matlab", "sql"]),
   ("web_technologies", ["html", "css", "react", "angular", "vue", "nodejs", "express",
      "django", "flask", "spring", "asp.net", "bootstrap"]),
   ("databases", ["mysql", "postgresql", "mongodb", "redis", "elasticsearch",
      "cassandra", "oracle", "sql server", "dynamodb"]),
   ("cloud_platforms", ["aws", "azure", "google cloud", "gcp", "heroku", "digitalocean",
      "kubernetes", "docker", "terraform"]),
   ("tools_frameworks", ["git", "jenkins", "docker", "kubernetes", "ansible", "puppet",
      "chef", "nagios", "prometheus", "grafana"]),
   ("data_science", ["machine learning", "deep learning", "tensorflow", "pytorch",
      "scikit-learn", "pandas", "numpy", "matplotlib", "tableau", "power bi"]),
   ("soft_skills", ["leadership", "communication", "teamwork", "problem-solving",
      "critical thinking", "project management", "agile", "scrum"])]

/-! ### `JobMatcher.extract_experience_requirements` (lines 92-138) -/

structure ExperienceInfo where
  min_years : Nat
  max_years : Option Nat
  specific_experience : List String
  level : String
deriving Repr, DecidableEq

/-- `int(match)` on a `(\d+)` capture. -/
def digitsToNat (ds : List Char) : Nat :=
  ds.foldl (fun n c => n * 10 + (c.toNat - 48)) 0

def extract_experience_requirements (job_text : String) : ExperienceInfo :=
  let job_text_lower := toLowerL job_text.data
  let years_found :=
    experiencePats.flatMap (fun pat => (refindall pat job_text_lower).map digitsToNat)
  let min_years :=
    match years_found with
    | [] => 0
    | y :: ys => ys.foldl Nat.min y
  let max_years :=
    match years_found with
    | [] => none
    | y :: ys =>
      if years_found.dedup.length > 1 then some (ys.foldl Nat.max y) else none
  let level :=
    if min_years == 0 then "entry"
    else if min_years ≤ 2 then "junior"
    else if min_years ≤ 5 then "mid"
    else "senior"
  let experience_phrases := refindall specificExpPat job_text_lower
  { min_years := min_years, max_years := max_years,
    specific_experience :=
      (experience_phrases.map trimL).filterMap (fun p =>
        if p.length > 3 then some (⟨p⟩ : String) else none),
    level := level }

/-! ### `JobMatcher.extract_education_requirements` (lines 140-185) -/

structure EducationInfo where
  degree_required : Bool
  degree_level : Option String
  preferred_fields : List String
  certifications : List String
deriving Repr, DecidableEq

def extract_education_requirements (job_text : String) : EducationInfo :=
  let job_text_lower := toLowerL job_text.data
  let hit := educationPats.find? (fun p => rematches p.1 job_text_lower)
  let degree_required := hit.isSome
  let degree_level := hit.bind (·.2)
  let preferred_fields :=
    ((refindall preferredFieldsPat job_text_lower).map trimL).filterMap (fun f =>
      if f.length > 2 then some (⟨f⟩ : String) else none)
  let certifications :=
    certPats.flatMap (fun pat =>
      ((refindall pat job_text_lower).map trimL).filterMap (fun m =>
        if m.length > 2 then some (⟨m⟩ : String) else none))
  { degree_required := degree_required, degree_level := degree_level,
    preferred_fields := preferred_fields, certifications := certifications }

/-! ### `JobMatcher.extract_skill_requirements` (lines 187-253) -/

structure SkillsInfo where
  required_skills : List String
  preferred_skills : List String
  categorized_skills : List (String × List String)
  skill_frequency : List (String × Nat)
deriving Repr, DecidableEq

/-- `re.sub(r'\band\b|\bor\b', ',', skill_text)`: replace the standalone
words `and` / `or` (word boundaries on both sides) by commas, scanning left
to right. -/
def subAndOrAux : Nat → Option Char → List Char → List Char
  | 0, _, _ => []
  | _ + 1, _, [] => []
  | f + 1, prev, s@(c :: rest) =>
    let wordBefore := match prev with | none => false | some p => isWordChar p
    if !wordBefore && isPrefixL ['a', 'n', 'd'] s &&
        !((s.drop 3).head?.elim false isWordChar) then
      ',' :: subAndOrAux f (some 'd') (s.drop 3)
    else if !wordBefore && isPrefixL ['o', 'r'] s &&
        !((s.drop 2).head?.elim false isWordChar) then
      ',' :: subAndOrAux f (some 'r') (s.drop 2)
    else c :: subAndOrAux f (some c) rest

def subAndOr (s : List Char) : List Char := subAndOrAux s.length none s

def parse_skill_list (skill_text : List Char) : List String :=
  let cleaned := subAndOr skill_text
  let skills := (splitIfL (fun c => c == ',') cleaned).map trimL
  (skills.filterMap (fun skill =>
    if skill.length > 2 &&
        !(["etc", "experience", "knowledge", "work"].any (fun w => w.data == skill)) then
      some (⟨skill⟩ : String)
    else none)).take 10

def extract_skill_requirements (job_text : String) : SkillsInfo :=
  let job_text_lower := toLowerL job_text.data
  let required_skills :=
    requiredSkillPats.flatMap (fun pat =>
      (refindall pat job_text_lower).flatMap parse_skill_list)
  let preferred_skills :=
    preferredSkillPats.flatMap (fun pat =>
      (refindall pat job_text_lower).flatMap parse_skill_list)
  let all_skills := required_skills ++ preferred_skills
  let categorized_skills :=
    skill_categories.map (fun cat =>
      (cat.1, all_skills.filter (fun skill =>
        cat.2.any (fun cat_skill => substrS cat_skill (lowerS skill)))))
  let skill_frequency :=
    (all_skills.eraseDups).map (fun s => (s, all_skills.count s))
  { required_skills := required_skills, preferred_skills := preferred_skills,
    categorized_skills := categorized_skills, skill_frequency := skill_frequency }

/-- The `'requirements'` sub-dict of `parse_job_description` (lines 78-82).
The sibling keys (`keywords`, `job_level`, `industry`, `benefits`,
`company_info`) are read by no claim; `keywords` in particular depends on
the external NLTK tokeniser and stop-word corpus. -/
structure Requirements where
  experience : ExperienceInfo
  education : EducationInfo
  skills : SkillsInfo
deriving Repr, DecidableEq

def parse_job_description_requirements (job_text : String) : Requirements :=
  { experience := extract_experience_requirements job_text,
    education := extract_education_requirements job_text,
    skills := extract_skill_requirements job_text }

/-! ### `JobMatcher.calculate_experience_match` / `calculate_skills_match`
(lines 413-444) -/

def calculate_experience_match (resume : ResumeAnalysis)
    (job_requirements : ExperienceInfo) : ℚ :=
  let _resume_experience := resume.detected_industry
  if job_requirements.min_years == 0 then 90
  else if job_requirements.min_years ≤ 3 then 75
  else 60

def calculate_skills_match (resume : ResumeAnalysis) (job_skills : SkillsInfo) : ℚ :=
  let resume_keywords := resume.keyword_analysis.found_keywords
  let resume_keywords_lower := resume_keywords.map lowerS
  let required_skills := job_skills.required_skills.map lowerS
  let preferred_skills := job_skills.preferred_skills.map lowerS
  let required_matches :=
    required_skills.countP (fun skill =>
      resume_keywords_lower.any (fun res_skill => substrS skill res_skill))
  let preferred_matches :=
    preferred_skills.countP (fun skill =>
      resume_keywords_lower.any (fun res_skill => substrS skill res_skill))
  let required_score : ℚ :=
    if !required_skills.isEmpty then
      (required_matches : ℚ) / (required_skills.length : ℚ) * 80
    else 80
  let preferred_score : ℚ :=
    if !preferred_skills.isEmpty then
      (preferred_matches : ℚ) / (preferred_skills.length : ℚ) * 20
    else 20
  min 100 (required_score + preferred_score)

/-! ## Spec-side definitions

The following definitions transcribe the *specification's* wording (not the
code); the theorems below compare the code-derived functions against them. -/

/-- The largest score in an industry-score list (`0` for the empty list). -/
def maxV (l : List (String × Nat)) : Nat := l.foldr (fun p m => max p.2 m) 0

/-- Spec §4.8 / claim C5: "match ratio = (count of job skill substrings found
within any resume found-keyword) / (count of job skills in that list)",
case-insensitively. -/
def matchRatioSpec (jobSkills resumeKws : List String) : ℚ :=
  ((jobSkills.countP (fun skill =>
      resumeKws.any (fun kw => substrS (lowerS skill) (lowerS kw)))) : ℚ) /
    (jobSkills.length : ℚ)

/-- Claim C9's notion of a line that opens section `k`. -/
def matchedLines (lines : List (List Char)) (k : String) : Prop :=
  ∃ line ∈ lines, findSectionKey (lineLower line) = some k

/-- The concrete job text of end-to-end scenario B (claim C3). -/
def jobTextScenarioB : String :=
  "Requires 5+ years of experience. Bachelor" ++ String.singleton aposC ++
  "s degree required. Must have: Python, SQL. Preferred: Docker."

/-- A minimal resume-analysis value, used to instantiate universally
quantified resume arguments in witnesses. -/
def blankResume : ResumeAnalysis :=
  { text := "", word_count := 0, sections := [],
    contact_info := ⟨none, none, none, none⟩, detected_industry := "",
    keyword_analysis := ⟨0, [], [], none, none⟩, ats_score := 0,
    recommendations := [], strengths := [], weaknesses := [] }

/-! ## Helper lemmas -/

/-- A fold whose steps all fold over empty inner lists is the identity. -/
theorem foldl_empty_inner {α : Type} (g : α → String → α)
    (data : List (String × List String)) (h : ∀ p ∈ data, p.2 = []) :
    ∀ acc : α, data.foldl (fun acc p => p.2.foldl g acc) acc = acc := by
  induction data with
  | nil => intro acc; rfl
  | cons d rest ih =>
    intro acc
    have hd : d.2 = [] := h d (List.mem_cons_self d rest)
    have hrest : ∀ p ∈ rest, p.2 = [] := fun p hp => h p (List.mem_cons_of_mem d hp)
    simp only [List.foldl_cons, hd, List.foldl_nil]
    exact ih hrest acc

theorem lookup_upsert_self (l : List (String × String)) (k v : String) :
    (upsert l k v).lookup k = some v := by
  induction l with
  | nil => simp [upsert, List.lookup]
  | cons p rest ih =>
    obtain ⟨k', v'⟩ := p
    by_cases h : k' == k
    · simp [upsert, h, List.lookup]
    · have hk : k ≠ k' := fun e => h (by simp [e])
      have hkk : (k == k') = false := by simp [hk]
      simp [upsert, h, List.lookup, hkk, ih]

theorem lookup_upsert_isSome (l : List (String × String)) (k v k' : String)
    (h : ((upsert l k v).lookup k').isSome) : (l.lookup k').isSome ∨ k' = k := by
  induction l with
  | nil =>
    by_cases hk : k' == k
    · exact Or.inr (by simpa using hk)
    · simp [upsert, List.lookup, hk] at h
  | cons p rest ih =>
    obtain ⟨k₁, v₁⟩ := p
    by_cases h1 : k₁ == k
    · simp only [upsert, h1, if_pos] at h
      by_cases h2 : k' == k
      · exact Or.inr (by simpa using h2)
      · simp only [List.lookup, h2] at h
        have h1' : (k' == k₁) = false := by
          have e1 : k₁ = k := by simpa using h1
          have e2 : k' ≠ k := by simpa using h2
          simp [e1, e2]
        left
        simp [List.lookup, h1', h]
    · simp only [upsert, h1, if_neg, Bool.not_eq_true] at h
      by_cases h2 : k' == k₁
      · left
        simp [List.lookup, h2] at h ⊢
      · simp only [List.lookup, h2] at h
        rcases ih (by simpa using h) with h' | h'
        · left
          simp [List.lookup, h2, h']
        · exact Or.inr h'

theorem lookup_flushSection_isSome (st : SecState) (k : String)
    (h : ((flushSection st).lookup k).isSome) :
    ((st.2.2).lookup k).isSome ∨ st.1 = some k := by
  obtain ⟨cur, cont, secs⟩ := st
  cases cur with
  | none => exact Or.inl h
  | some c =>
    by_cases hc : cont.isEmpty
    · simp only [flushSection, hc, if_pos] at h
      exact Or.inl h
    · simp only [flushSection, hc, if_neg, Bool.not_eq_true] at h
      rcases lookup_upsert_isSome _ _ _ _ h with h' | h'
      · exact Or.inl h'
      · exact Or.inr (by rw [h'])

theorem stepLine_cases (st : SecState) (line : List Char) :
    (∃ k0, findSectionKey (lineLower line) = some k0 ∧
      stepLine st line = (some k0, [], flushSection st)) ∨
    (findSectionKey (lineLower line) = none ∧ (stepLine st line).1 = st.1 ∧
      (stepLine st line).2.2 = st.2.2) := by
  obtain ⟨cur, cont, secs⟩ := st
  cases hms : findSectionKey (lineLower line) with
  | some k0 => exact Or.inl ⟨k0, rfl, by simp [stepLine, hms]⟩
  | none =>
    refine Or.inr ⟨rfl, ?_, ?_⟩ <;> cases cur <;> simp [stepLine, hms]

theorem matchedLines_cons (l : List Char) (lines : List (List Char)) (k : String)
    (h : matchedLines lines k) : matchedLines (l :: lines) k := by
  obtain ⟨x, hx, hm⟩ := h
  exact ⟨x, List.mem_cons_of_mem _ hx, hm⟩

/-- Invariant of the section-extraction fold: a key can appear in the
accumulated dict (or as the open section) only if it was already there in
the starting state or some processed line's header matched it. -/
theorem foldl_stepLine_inv (lines : List (List Char)) :
    ∀ (st : SecState) (k : String),
      ((((lines.foldl stepLine st).2.2).lookup k).isSome →
        (((st.2.2).lookup k).isSome ∨ st.1 = some k ∨ matchedLines lines k)) ∧
      ((lines.foldl stepLine st).1 = some k →
        (st.1 = some k ∨ matchedLines lines k)) := by
  induction lines with
  | nil =>
    intro st k
    exact ⟨fun h => Or.inl h, fun h => Or.inl h⟩
  | cons line rest ih =>
    intro st k
    constructor
    · intro h
      rw [List.foldl_cons] at h
      rcases (ih (stepLine st line) k).1 h with h' | h' | h'
      · rcases stepLine_cases st line with ⟨k0, hk0, hstep⟩ | ⟨hnone, hfst, hsecs⟩
        · rw [hstep] at h'
          rcases lookup_flushSection_isSome st k h' with h'' | h''
          · exact Or.inl h''
          · exact Or.inr (Or.inl h'')
        · rw [hsecs] at h'
          exact Or.inl h'
      · rcases stepLine_cases st line with ⟨k0, hk0, hstep⟩ | ⟨hnone, hfst, hsecs⟩
        · rw [hstep] at h'
          simp only at h'
          exact Or.inr (Or.inr ⟨line, List.mem_cons_self _ _, by rw [hk0, h']⟩)
        · rw [hfst] at h'
          exact Or.inr (Or.inl h')
      · exact Or.inr (Or.inr (matchedLines_cons _ _ _ h'))
    · intro h
      rw [List.foldl_cons] at h
      rcases (ih (stepLine st line) k).2 h with h' | h'
      · rcases stepLine_cases st line with ⟨k0, hk0, hstep⟩ | ⟨hnone, hfst, hsecs⟩
        · rw [hstep] at h'
          simp only at h'
          exact Or.inr ⟨line, List.mem_cons_self _ _, by rw [hk0, h']⟩
        · rw [hfst] at h'
          exact Or.inl h'
      · exact Or.inr (matchedLines_cons _ _ _ h')

theorem findSome?_if_eq_some {α β : Type} (l : List α) (q : α → Bool) (f : α → β)
    (b : β) (h : l.findSome? (fun p => if q p then some (f p) else none) = some b) :
    ∃ p ∈ l, q p = true ∧ f p = b := by
  induction l with
  | nil => exact absurd h (by simp)
  | cons a rest ih =>
    rw [List.findSome?_cons] at h
    by_cases hqa : q a = true
    · simp only [hqa, if_pos, Option.some.injEq] at h
      exact ⟨a, List.mem_cons_self _ _, hqa, h⟩
    · simp only [hqa, if_neg, Bool.not_eq_true] at h
      obtain ⟨p, hp, hq, hf⟩ := ih h
      exact ⟨p, List.mem_cons_of_mem _ hp, hq, hf⟩

theorem findSectionKey_spec (ll : List Char) (k : String)
    (h : findSectionKey ll = some k) :
    ∃ p ∈ section_headers, p.1 = k ∧
      p.2.any (fun hd => isSubstrL hd.data ll) = true := by
  obtain ⟨p, hp, hq, hf⟩ := findSome?_if_eq_some section_headers
    (fun p => p.2.any (fun hd => isSubstrL hd.data ll)) (fun p => p.1) k h
  exact ⟨p, hp, hf, hq⟩

theorem foldl_dropWhile_nonheader (lines : List (List Char)) :
    ∀ (cont : List (List Char)) (secs : List (String × String)),
      lines.foldl stepLine (none, cont, secs) =
        (lines.dropWhile (fun l => (findSectionKey (lineLower l)).isNone)).foldl
          stepLine (none, cont, secs) := by
  induction lines with
  | nil => intro cont secs; rfl
  | cons line rest ih =>
    intro cont secs
    cases hms : findSectionKey (lineLower line) with
    | some k0 =>
      rw [List.dropWhile_cons]
      simp [hms]
    | none =>
      rw [List.foldl_cons, List.dropWhile_cons]
      have hstep : stepLine (none, cont, secs) line = (none, cont, secs) := by
        simp [stepLine, hms]
      rw [hstep]
      simp only [hms, Option.isNone_none, if_true]
      exact ih cont secs

theorem foldl_nonheader_run (q : List (List Char)) :
    ∀ (S : String) (cont : List (List Char)) (secs : List (String × String)),
      (∀ l ∈ q, findSectionKey (lineLower l) = none) →
      q.foldl stepLine (some S, cont, secs) = (some S, cont ++ q, secs) := by
  induction q with
  | nil => intro S cont secs _; simp
  | cons l rest ih =>
    intro S cont secs hq
    rw [List.foldl_cons]
    have hstep : stepLine (some S, cont, secs) l = (some S, cont ++ [l], secs) := by
      simp [stepLine, hq l (List.mem_cons_self _ _)]
    rw [hstep, ih S (cont ++ [l]) secs (fun x hx => hq x (List.mem_cons_of_mem _ hx))]
    simp

theorem splitIfL_no_sep (p : Char → Bool) : ∀ (x : List Char),
    (∀ c ∈ x, p c = false) → splitIfL p x = [x] := by
  intro x
  induction x with
  | nil => intro _; rfl
  | cons c rest ih =>
    intro h
    have hc : p c = false := h c (List.mem_cons_self _ _)
    have hr := ih (fun d hd => h d (List.mem_cons_of_mem _ hd))
    simp [splitIfL, hc, hr]

theorem splitIfL_append_sep (p : Char → Bool) (sep : Char) (hsep : p sep = true) :
    ∀ (x rest : List Char), (∀ c ∈ x, p c = false) →
      splitIfL p (x ++ sep :: rest) = x :: splitIfL p rest := by
  intro x
  induction x with
  | nil =>
    intro rest _
    simp [splitIfL, hsep]
  | cons c cs ih =>
    intro rest h
    have hc : p c = false := h c (List.mem_cons_self _ _)
    have hr := ih rest (fun d hd => h d (List.mem_cons_of_mem _ hd))
    simp [splitIfL, hc, hr]

theorem splitLinesL_joinL : ∀ (ls : List (List Char)), ls ≠ [] →
    (∀ l ∈ ls, '\n' ∉ l) → splitLinesL (joinL ['\n'] ls) = ls := by
  intro ls
  induction ls with
  | nil => intro h; exact absurd rfl h
  | cons x xs ih =>
    intro _ h
    have hx : ∀ c ∈ x, (c == '\n') = false := by
      intro c hc
      have hne : c ≠ '\n' := fun e => (h x (List.mem_cons_self _ _)) (e ▸ hc)
      simp [hne]
    cases xs with
    | nil => exact splitIfL_no_sep _ x hx
    | cons y ys =>
      have hjoin : joinL ['\n'] (x :: y :: ys) =
          x ++ '\n' :: joinL ['\n'] (y :: ys) := by
        show x ++ ['\n'] ++ joinL ['\n'] (y :: ys) = _
        simp
      show splitIfL _ (joinL ['\n'] (x :: y :: ys)) = x :: y :: ys
      rw [hjoin, splitIfL_append_sep _ ('\n') (by simp) x _ hx]
      have := ih (by simp) (fun l hl => h l (List.mem_cons_of_mem _ hl))
      rw [show splitIfL (fun c => c == '\n')
          (joinL ['\n'] (y :: ys)) = splitLinesL (joinL ['\n']
          (y :: ys)) from rfl, this]

theorem maxV_cons (p : String × Nat) (l : List (String × Nat)) :
    maxV (p :: l) = max p.2 (maxV l) := rfl

theorem le_maxV (l : List (String × Nat)) : ∀ p ∈ l, p.2 ≤ maxV l := by
  induction l with
  | nil => intro p hp; cases hp
  | cons q rest ih =>
    intro p hp
    rcases List.mem_cons.mp hp with rfl | h
    · exact le_max_left _ _
    · exact le_trans (ih p h) (le_max_right _ _)

theorem exists_le_maxV (l : List (String × Nat)) (h : l ≠ []) :
    ∃ p ∈ l, maxV l ≤ p.2 := by
  induction l with
  | nil => exact absurd rfl h
  | cons q rest ih =>
    rcases eq_or_ne rest [] with rfl | hne
    · exact ⟨q, List.mem_cons_self q [], by simp [maxV]⟩
    · rcases le_total (maxV rest) q.2 with hle | hle
      · exact ⟨q, List.mem_cons_self q rest, by rw [maxV_cons, max_eq_left hle]⟩
      · obtain ⟨p, hp, hple⟩ := ih hne
        exact ⟨p, List.mem_cons_of_mem q hp,
          by rw [maxV_cons, max_eq_right hle]; exact hple⟩

/-- `max` over a dict keeps the current best on ties, so the result is the
first pair attaining the maximum value. -/
theorem goPair_first_max (l : List (String × Nat)) : ∀ b : String × Nat,
    goPair b l = ((b :: l).find? (fun p => decide (maxV (b :: l) ≤ p.2))).getD b := by
  induction l with
  | nil =>
    intro b
    simp [goPair, List.find?, maxV]
  | cons r rs ih =>
    intro b
    by_cases hrb : r.2 > b.2
    · rw [show goPair b (r :: rs) = goPair r rs from by simp [goPair, hrb], ih r]
      have hble : b.2 < maxV (r :: rs) :=
        lt_of_lt_of_le hrb (le_maxV _ r (List.mem_cons_self r rs))
      have hmax : maxV (b :: r :: rs) = maxV (r :: rs) := by
        rw [maxV_cons (l := r :: rs), max_eq_right (le_of_lt hble)]
      simp only [hmax]
      have hb : ¬ ((fun p : String × Nat => decide (maxV (r :: rs) ≤ p.2)) b = true) := by
        simp only [decide_eq_true_eq]
        exact not_le.mpr hble
      rw [List.find?_cons_of_neg
        (p := fun p : String × Nat => decide (maxV (r :: rs) ≤ p.2)) _ hb]
      obtain ⟨y, hy⟩ := Option.isSome_iff_exists.mp
        ((@List.find?_isSome (String × Nat) (r :: rs)
          (fun p : String × Nat => decide (maxV (r :: rs) ≤ p.2))).mpr (by
            obtain ⟨p, hp, hple⟩ := exists_le_maxV (r :: rs) (by simp)
            exact ⟨p, hp, by simpa using hple⟩))
      rw [hy]
      rfl
    · push_neg at hrb
      rw [show goPair b (r :: rs) = goPair b rs from by simp [goPair, not_lt.mpr hrb],
        ih b]
      have hmax2 : maxV (b :: r :: rs) = maxV (b :: rs) := by
        rw [maxV_cons (l := r :: rs), maxV_cons (l := rs), ← Nat.max_assoc,
          Nat.max_eq_left hrb, ← maxV_cons]
      simp only [hmax2]
      by_cases hb : (fun p : String × Nat => decide (maxV (b :: rs) ≤ p.2)) b = true
      · rw [List.find?_cons_of_pos
          (p := fun p : String × Nat => decide (maxV (b :: rs) ≤ p.2)) _ hb,
          List.find?_cons_of_pos
          (p := fun p : String × Nat => decide (maxV (b :: rs) ≤ p.2)) _ hb]
      · rw [List.find?_cons_of_neg
          (p := fun p : String × Nat => decide (maxV (b :: rs) ≤ p.2)) _ hb,
          List.find?_cons_of_neg
          (p := fun p : String × Nat => decide (maxV (b :: rs) ≤ p.2)) _ hb]
        have hr : ¬ ((fun p : String × Nat => decide (maxV (b :: rs) ≤ p.2)) r = true) := by
          simp only [decide_eq_true_eq, not_le] at hb ⊢
          exact lt_of_le_of_lt hrb hb
        rw [List.find?_cons_of_neg
          (p := fun p : String × Nat => decide (maxV (b :: rs) ≤ p.2)) _ hr]

theorem maxByValueFirst_spec (l : List (String × Nat)) :
    maxByValueFirst l = (l.find? (fun p => decide (maxV l ≤ p.2))).map Prod.fst := by
  cases l with
  | nil => rfl
  | cons b rest =>
    show some (goPair b rest).1 = _
    rw [goPair_first_max rest b]
    obtain ⟨p, hp, hple⟩ := exists_le_maxV (b :: rest) (by simp)
    obtain ⟨y, hy⟩ := Option.isSome_iff_exists.mp
      ((@List.find?_isSome (String × Nat) (b :: rest)
        (fun p : String × Nat => decide (maxV (b :: rest) ≤ p.2))).mpr
        ⟨p, hp, by simpa using hple⟩)
    rw [hy]
    rfl

theorem maxV_eq_zero (l : List (String × Nat)) (h : ∀ p ∈ l, p.2 = 0) :
    maxV l = 0 := by
  induction l with
  | nil => rfl
  | cons q rest ih =>
    rw [maxV_cons, h q (List.mem_cons_self q rest),
      ih (fun p hp => h p (List.mem_cons_of_mem q hp))]
    simp

/-! ## Claim theorems -/

/-- Counterexample to C1 as stated: on the empty text every industry score
is 0, yet `detect_industry` returns `"technology"` (the first industry in
dictionary-declaration order), not the catch-all `"general"`. -/
theorem claim_C1_counterexample :
    (∀ p ∈ industryScores "", p.2 = 0) ∧ detect_industry "" = "technology" ∧
    detect_industry "" ≠ "general" := by
  decide

/-- C1 (amended): `detect_industry` returns the argmax industry with ties
broken in favour of the first industry in dictionary-declaration order
(formally: the first score pair attaining the maximal score); consequently,
when all industry scores are 0 it returns `"technology"`, the
first-declared industry, and `"general"` would be returned only if the
score dict were empty — which it never is for the shipped dictionary. -/
theorem claim_C1_argmax_first (text : String) :
    detect_industry text =
      ((((industryScores text).find?
          (fun p => decide (maxV (industryScores text) ≤ p.2))).map Prod.fst).getD
        "general") ∧
    ((∀ p ∈ industryScores text, p.2 = 0) → detect_industry text = "technology") := by
  have hspec := maxByValueFirst_spec (industryScores text)
  have hdet : detect_industry text =
      ((((industryScores text).find?
          (fun p => decide (maxV (industryScores text) ≤ p.2))).map Prod.fst).getD
        "general") := by
    unfold detect_industry
    rw [hspec]
    cases ((industryScores text).find?
      (fun p => decide (maxV (industryScores text) ≤ p.2))) <;> rfl
  refine ⟨hdet, fun hz => ?_⟩
  rw [hdet]
  have hzero : maxV (industryScores text) = 0 := maxV_eq_zero _ hz
  obtain ⟨v, rest, hcons⟩ :
      ∃ v rest, industryScores text = ("technology", v) :: rest := ⟨_, _, rfl⟩
  rw [hcons] at hzero ⊢
  rw [List.find?_cons_of_pos
    (p := fun p : String × Nat => decide (maxV (("technology", v) :: rest) ≤ p.2)) _
    (by simp [hzero])]
  rfl

theorem claim_C1_witness : detect_industry "" = "technology" :=
  (claim_C1_argmax_first "").2 (by decide)

/-- C9: the sections map contains a key only if some line of the text
(lowercased, trimmed) contains one of that section's header keywords; and
lines preceding the first header-matching line never reach any section's
value — extracting from the input is the same as extracting after dropping
every pre-header line. -/
theorem claim_C9_section_invariants (text : String) :
    (∀ k : String, ((extract_sections text).lookup k).isSome →
      ∃ p ∈ section_headers, p.1 = k ∧
        ∃ line ∈ splitLinesL text.data,
          p.2.any (fun hd => isSubstrL hd.data (lineLower line)) = true) ∧
    extract_sections text =
      flushSection (((splitLinesL text.data).dropWhile
        (fun l => (findSectionKey (lineLower l)).isNone)).foldl stepLine
        (none, [], [])) := by
  constructor
  · intro k h
    unfold extract_sections at h
    have hassemble : matchedLines (splitLinesL text.data) k →
        ∃ p ∈ section_headers, p.1 = k ∧
          ∃ line ∈ splitLinesL text.data,
            p.2.any (fun hd => isSubstrL hd.data (lineLower line)) = true := by
      rintro ⟨line, hline, hkey⟩
      obtain ⟨p, hp, hpk, hany⟩ := findSectionKey_spec _ _ hkey
      exact ⟨p, hp, hpk, line, hline, hany⟩
    rcases lookup_flushSection_isSome _ k h with h' | h'
    · rcases (foldl_stepLine_inv (splitLinesL text.data) (none, [], []) k).1 h' with
        h'' | h'' | h''
      · exact absurd h'' (by simp [List.lookup])
      · exact absurd h'' (by simp)
      · exact hassemble h''
    · rcases (foldl_stepLine_inv (splitLinesL text.data) (none, [], []) k).2 h' with
        h'' | h''
      · exact absurd h'' (by simp)
      · exact hassemble h''
  · unfold extract_sections
    rw [foldl_dropWhile_nonheader]

theorem claim_C9_witness :
    ∃ p ∈ section_headers, p.1 = "skills" ∧
      ∃ line ∈ splitLinesL ("Skills\npython".data),
        p.2.any (fun hd => isSubstrL hd.data (lineLower line)) = true :=
  (claim_C9_section_invariants "Skills\npython").1 "skills" (by decide)

/-- C10: when a header for section `S` occurs both somewhere in the prefix
and on a later line, and at least one non-header line follows the last such
header, the returned value for `S` is exactly the content accumulated after
the last header — whatever was gathered earlier (the arbitrary `pre` here)
is overwritten by the final flush, not concatenated. -/
theorem claim_C10_duplicate_header_overwrite (pre q : List (List Char))
    (hline : List Char) (S : String)
    (hH : findSectionKey (lineLower hline) = some S)
    (hq : ∀ l ∈ q, findSectionKey (lineLower l) = none)
    (hqne : q ≠ [])
    (hnl : ∀ l ∈ pre ++ hline :: q, '\n' ∉ l) :
    ((extract_sections ⟨joinL ['\n'] (pre ++ hline :: q)⟩).lookup S) =
      some ⟨joinL ['\n'] q⟩ := by
  have hdata : (⟨joinL ['\n'] (pre ++ hline :: q)⟩ : String).data =
      joinL ['\n'] (pre ++ hline :: q) := rfl
  unfold extract_sections
  rw [hdata, splitLinesL_joinL _ (by simp) hnl, List.foldl_append, List.foldl_cons]
  have hstep : stepLine (pre.foldl stepLine (none, [], [])) hline =
      (some S, [], flushSection (pre.foldl stepLine (none, [], []))) := by
    simp [stepLine, hH]
  rw [hstep, foldl_nonheader_run q S [] _ hq]
  have hne : q.isEmpty = false := by
    cases q with
    | nil => exact absurd rfl hqne
    | cons _ _ => rfl
  rw [List.nil_append]
  rw [show flushSection (some S, q,
        flushSection (pre.foldl stepLine (none, [], []))) =
      upsert (flushSection (pre.foldl stepLine (none, [], []))) S
        ⟨joinL ['\n'] q⟩ from by simp [flushSection, hne]]
  exact lookup_upsert_self _ _ _

theorem claim_C10_witness :
    ((extract_sections ⟨joinL ['\n'] (["Experience".data, "old content".data] ++
        "Experience".data :: ["new content".data])⟩).lookup "experience") =
      some ⟨joinL ['\n'] ["new content".data]⟩ :=
  claim_C10_duplicate_header_overwrite ["Experience".data, "old content".data]
    ["new content".data] "Experience".data "experience" (by decide) (by decide)
    (by decide) (by decide)

/-- C3: on the scenario-B job text
`"Requires 5+ years of experience. Bachelor's degree required. Must have:
Python, SQL. Preferred: Docker."`, the job-description parser extracts
`min_years = 5`, a required degree, required skills containing `"python"`
and `"sql"`, and preferred skills containing `"docker"`. -/
theorem claim_C3_parse_scenarioB :
    (parse_job_description_requirements jobTextScenarioB).experience.min_years = 5 ∧
    (parse_job_description_requirements jobTextScenarioB).education.degree_required
      = true ∧
    "python" ∈ (parse_job_description_requirements jobTextScenarioB).skills.required_skills ∧
    "sql" ∈ (parse_job_description_requirements jobTextScenarioB).skills.required_skills ∧
    "docker" ∈ (parse_job_description_requirements jobTextScenarioB).skills.preferred_skills := by
  decide

/-- C4: on the empty byte buffer (any filename), the analysis wrapper of
`advanced_main.py` returns the documented fallback analysis: an
`ats_score` of at most 60 and a non-empty weaknesses list, with no
exception (the embedding is total). -/
theorem claim_C4_empty_input (filename : String) :
    analyze_resume_content_adv [] filename = fallbackAnalysis ∧
    (analyze_resume_content_adv [] filename).ats_score ≤ 60 ∧
    (analyze_resume_content_adv [] filename).analysis.weaknesses ≠ [] := by
  have hp : parse_resume [] filename =
      ParseResult.error "Could not extract text from resume" := by
    unfold parse_resume extract_text_from_pdf extract_text_from_docx decode_utf8_ignore
    split_ifs <;> rfl
  have h : analyze_resume_content_adv [] filename = fallbackAnalysis := by
    unfold analyze_resume_content_adv
    rw [hp]
  refine ⟨h, ?_, ?_⟩ <;> rw [h]
  · norm_num [fallbackAnalysis]
  · simp [fallbackAnalysis]

theorem claim_C4_witness :
    (analyze_resume_content_adv [] "resume.pdf").ats_score ≤ 60 :=
  (claim_C4_empty_input "resume.pdf").2.1

/-- C5: `calculate_skills_match` equals
`min(100, requiredMatchRatio*80 + preferredMatchRatio*20)` with an empty
skill list contributing its full allocation, and returns exactly 100 when
both job skill lists are empty. -/
theorem claim_C5_skills_match (resume : ResumeAnalysis) (job_skills : SkillsInfo) :
    calculate_skills_match resume job_skills =
      min 100
        ((if job_skills.required_skills = [] then (80 : ℚ)
          else matchRatioSpec job_skills.required_skills
            resume.keyword_analysis.found_keywords * 80) +
         (if job_skills.preferred_skills = [] then (20 : ℚ)
          else matchRatioSpec job_skills.preferred_skills
            resume.keyword_analysis.found_keywords * 20)) ∧
    (job_skills.required_skills = [] → job_skills.preferred_skills = [] →
      calculate_skills_match resume job_skills = 100) := by
  constructor
  · unfold calculate_skills_match
    by_cases h1 : job_skills.required_skills = [] <;>
      by_cases h2 : job_skills.preferred_skills = [] <;>
        simp [h1, h2, matchRatioSpec, List.countP_map, List.any_map,
          Function.comp_def, List.isEmpty_iff, List.map_eq_nil_iff]
  · intro h1 h2
    unfold calculate_skills_match
    simp [h1, h2]
    norm_num

theorem claim_C5_witness :
    calculate_skills_match blankResume ⟨[], [], [], []⟩ = 100 :=
  (claim_C5_skills_match blankResume ⟨[], [], [], []⟩).2 rfl rfl

/-- C6: the experience match score is a function of the job's `min_years`
alone — identical for any two resume analyses — with buckets
0 ↦ 90, 1..3 ↦ 75, ≥4 ↦ 60. -/
theorem claim_C6_experience_noninterference (r1 r2 : ResumeAnalysis)
    (j : ExperienceInfo) :
    calculate_experience_match r1 j = calculate_experience_match r2 j ∧
    (j.min_years = 0 → calculate_experience_match r1 j = 90) ∧
    (1 ≤ j.min_years → j.min_years ≤ 3 → calculate_experience_match r1 j = 75) ∧
    (4 ≤ j.min_years → calculate_experience_match r1 j = 60) := by
  unfold calculate_experience_match
  refine ⟨rfl, fun h => ?_, fun h1 h3 => ?_, fun h4 => ?_⟩ <;>
    · split_ifs <;> simp_all <;> omega

theorem claim_C6_witness :
    calculate_experience_match blankResume ⟨0, none, [], "entry"⟩ = 90 :=
  (claim_C6_experience_noninterference blankResume blankResume
    ⟨0, none, [], "entry"⟩).2.1 rfl

/-- C8: `analyze_keywords` on an industry absent from the keyword
dictionary — in particular `'general'` — returns score 50 with empty
found/missing lists, and the zero-total case is guarded: an industry whose
keyword lists are all empty yields score 0 (no division by zero; the
embedding is total). -/
theorem claim_C8_general_fallback_and_guard :
    (∀ text industry : String, industry_keywords.lookup industry = none →
      analyze_keywords text industry = ⟨50, [], [], none, none⟩) ∧
    (∀ text : String, analyze_keywords text "general" = ⟨50, [], [], none, none⟩) ∧
    (∀ (dict : List (String × List (String × List String))) (text industry : String)
      (industry_data : List (String × List String)),
      dict.lookup industry = some industry_data →
      (∀ p ∈ industry_data, p.2 = []) →
      (analyze_keywords_with dict text industry).score = 0) := by
  have habsent : ∀ text industry : String, industry_keywords.lookup industry = none →
      analyze_keywords text industry = ⟨50, [], [], none, none⟩ := by
    intro text industry h
    unfold analyze_keywords analyze_keywords_with
    rw [h]
  refine ⟨habsent, fun text => habsent text "general" (by decide), ?_⟩
  intro dict text industry industry_data hlookup hempty
  unfold analyze_keywords_with
  rw [hlookup]
  simp only [foldl_empty_inner _ industry_data hempty]
  norm_num

/-- C2: `calculate_ats_score` is exactly the weighted sum
sectionScore + contactScore + 0.30·keywordScore + formatScore (given a
keyword score in `[0,100]`, as `analyze_keywords` always produces), and the
result always lies in `[0,100]`; the embedding is total, so empty text
evaluates without an exception. -/
theorem claim_C2_ats_formula (text : String) (sections : List (String × String))
    (contact_info : ContactInfo) (keyword_analysis : KeywordAnalysis)
    (h0 : 0 ≤ keyword_analysis.score) (h1 : keyword_analysis.score ≤ 100) :
    calculate_ats_score text sections contact_info keyword_analysis =
      ((["experience", "education", "skills"].countP
          (fun s => (sections.lookup s).isSome) : ℚ) / 3) * 40 +
      ((if truthy contact_info.email then (10 : ℚ) else 0) +
        (if truthy contact_info.phone then (10 : ℚ) else 0)) +
      keyword_analysis.score / 100 * 30 +
      ((10 : ℚ) - (if wordCount text < 200 then 3 else 0) -
        (if wordCount text > 800 then 2 else 0)) ∧
    0 ≤ calculate_ats_score text sections contact_info keyword_analysis ∧
    calculate_ats_score text sections contact_info keyword_analysis ≤ 100 := by
  have hn3 : (["experience", "education", "skills"].countP
      (fun s => (sections.lookup s).isSome)) ≤ 3 :=
    List.countP_le_length _
  have hnq0 : (0 : ℚ) ≤ ((["experience", "education", "skills"].countP
      (fun s => (sections.lookup s).isSome) : ℕ) : ℚ) := by positivity
  have hnq3 : ((["experience", "education", "skills"].countP
      (fun s => (sections.lookup s).isSome) : ℕ) : ℚ) ≤ 3 := by exact_mod_cast hn3
  have hK0 : (0 : ℚ) ≤ keyword_analysis.score / 100 * 30 :=
    mul_nonneg (div_nonneg h0 (by norm_num)) (by norm_num)
  have hK30 : keyword_analysis.score / 100 * 30 ≤ 30 := by
    rw [div_mul_eq_mul_div, div_le_iff₀ (by norm_num : (0 : ℚ) < 100)]
    nlinarith
  have hlen : ((["experience", "education", "skills"].length : ℕ) : ℚ) = 3 := by
    norm_num
  refine ⟨?_, ?_, ?_⟩
  · simp only [calculate_ats_score]
    rw [hlen, min_eq_right_iff]
    split_ifs <;> linarith
  · simp only [calculate_ats_score]
    rw [le_min_iff]
    refine ⟨by norm_num, ?_⟩
    rw [hlen]
    split_ifs <;> linarith
  · simp only [calculate_ats_score]
    exact min_le_left _ _

theorem claim_C2_witness :
    calculate_ats_score "" [] ⟨none, none, none, none⟩ ⟨0, [], [], none, none⟩ ≤ 100 :=
  (claim_C2_ats_formula "" [] ⟨none, none, none, none⟩ ⟨0, [], [], none, none⟩
    (by norm_num) (by norm_num)).2.2

/-- C7: `generate_recommendations` evaluates its checklist in the fixed
order keywords → contact → structure → metrics → verbs, each condition
emitting at most one entry and the output preserving that order (witnessed
here through the action tags, which are distinct per checklist item);
in particular, with keyword score below 60 and a missing email or phone,
the keyword recommendation precedes the contact recommendation (positions
0 and 1). -/
theorem claim_C7_recommendation_order (text : String)
    (sections : List (String × String)) (contact_info : ContactInfo)
    (keyword_analysis : KeywordAnalysis) (industry : String) (ats_score : ℚ) :
    ((generate_recommendations text sections contact_info keyword_analysis industry
        ats_score).map (·.action) =
      (if keyword_analysis.score < 60 then ["keyword_optimization"] else []) ++
      (if !truthy contact_info.email || !truthy contact_info.phone then
        ["add_contact_info"] else []) ++
      (if (["experience", "education", "skills", "summary"].filter
          (fun required => (sections.lookup required).isNone)) ≠ [] then
        ["add_sections"] else []) ++
      (if !rematches metricPat text.data then ["add_metrics"] else []) ++
      (if weak_verbs.any (fun v => substrS v (lowerS text)) then ["improve_verbs"]
       else [])) ∧
    (keyword_analysis.score < 60 →
      (¬ truthy contact_info.email ∨ ¬ truthy contact_info.phone) →
      ((generate_recommendations text sections contact_info keyword_analysis industry
          ats_score).get? 0).map (·.type) = some "keywords" ∧
      ((generate_recommendations text sections contact_info keyword_analysis industry
          ats_score).get? 1).map (·.type) = some "contact") := by
  constructor
  · unfold generate_recommendations
    simp only [List.map_append, apply_ite (List.map (fun r : Recommendation => r.action)),
      List.map_cons, List.map_nil, Bool.not_eq_true', List.isEmpty_eq_false, ne_eq]
  · intro hkw hc
    have hcb : (!truthy contact_info.email || !truthy contact_info.phone) = true := by
      rcases hc with h | h <;> simp_all
    unfold generate_recommendations
    rw [if_pos hkw, if_pos hcb]
    simp

theorem claim_C7_witness :
    ((generate_recommendations "" [] ⟨none, none, none, none⟩ ⟨0, [], [], none, none⟩
        "technology" 0).get? 0).map (·.type) = some "keywords" ∧
    ((generate_recommendations "" [] ⟨none, none, none, none⟩ ⟨0, [], [], none, none⟩
        "technology" 0).get? 1).map (·.type) = some "contact" :=
  (claim_C7_recommendation_order "" [] ⟨none, none, none, none⟩
    ⟨0, [], [], none, none⟩ "technology" 0).2 (by norm_num) (Or.inl (by decide))

theorem claim_C8_witness :
    (analyze_keywords_with [("x", [("cat", ([] : List String))])] "" "x").score = 0 :=
  claim_C8_general_fallback_and_guard.2.2 [("x", [("cat", [])])] "" "x"
    [("cat", [])] rfl (by decide)

end Resume
